import Mathlib

/-!
Verification development for the cassandra-data-apis service.

The development shallowly embeds the parts of the code base that the
stated properties concern: the GraphQL scalar serialization layer
(`graphql` package, scalar serialize/deserialize functions), the query
building and execution option resolution exercised by the endpoint
tests, the authentication gate of the execution path, the schema
update interval resolution of `cmd/server.go`, and the atomic snapshot
publication discipline of the schema synchronizer.

Machine text is modelled as Lean `String`/`List Char`; Go's `[]byte`,
`string` and `*string` scalar carriers are modelled explicitly.  Go
functions returning `nil` on failure are modelled as `Option`-valued
functions returning `none`.
-/

namespace CassandraDataApis

/-! ## Fixed-width positional digit printing and parsing.

These model the textual forms used by the library text codecs
(`gocql.UUID`, `time.Time`, `net.IP` marshal/unmarshal), which the
repository's scalar layer delegates to. `printFix base k n` prints the
`k` least-significant base-`base` digits of `n`, most significant
first; `parseFix` is its left inverse, consuming exactly `k`
characters. -/

/-- Print the `k` least-significant base-`base` digits of `n`, most
significant digit first, using `Nat.digitChar` for each digit. -/
def printFix (base : Nat) : Nat → Nat → List Char
  | 0, _ => []
  | k + 1, n => printFix base k (n / base) ++ [Nat.digitChar (n % base)]

/-- Parse exactly `k` characters as base-`base` digits (digit values read
by `dval`), returning the value and the remaining characters. -/
def parseFix (base : Nat) (dval : Char → Option Nat) : Nat → List Char → Option (Nat × List Char)
  | 0, cs => some (0, cs)
  | k + 1, cs =>
    match parseFix base dval k cs with
    | some (hi, c :: rest) =>
      match dval c with
      | some v => some (hi * base + v, rest)
      | none => none
    | _ => none

/-- Digit value of a lowercase hexadecimal character. -/
def hexVal (c : Char) : Option Nat :=
  if c = '0' then some 0
  else if c = '1' then some 1
  else if c = '2' then some 2
  else if c = '3' then some 3
  else if c = '4' then some 4
  else if c = '5' then some 5
  else if c = '6' then some 6
  else if c = '7' then some 7
  else if c = '8' then some 8
  else if c = '9' then some 9
  else if c = 'a' then some 10
  else if c = 'b' then some 11
  else if c = 'c' then some 12
  else if c = 'd' then some 13
  else if c = 'e' then some 14
  else if c = 'f' then some 15
  else none

/-- Digit value of a decimal character. -/
def decVal (c : Char) : Option Nat :=
  if c = '0' then some 0
  else if c = '1' then some 1
  else if c = '2' then some 2
  else if c = '3' then some 3
  else if c = '4' then some 4
  else if c = '5' then some 5
  else if c = '6' then some 6
  else if c = '7' then some 7
  else if c = '8' then some 8
  else if c = '9' then some 9
  else none

theorem hexVal_digitChar : ∀ v, v < 16 → hexVal (Nat.digitChar v) = some v := by decide

theorem decVal_digitChar : ∀ v, v < 10 → decVal (Nat.digitChar v) = some v := by decide

/-- Parsing after printing recovers the value and leaves the suffix
untouched, provided every printed digit is read back correctly. -/
theorem parseFix_printFix (base : Nat) (dval : Char → Option Nat)
    (hb : 0 < base) (hd : ∀ v, v < base → dval (Nat.digitChar v) = some v) :
    ∀ (k n : Nat) (cs : List Char), n < base ^ k →
      parseFix base dval k (printFix base k n ++ cs) = some (n, cs) := by
  intro k
  induction k with
  | zero =>
    intro n cs hn
    have hn0 : n = 0 := Nat.lt_one_iff.mp (by simpa using hn)
    subst hn0
    simp [printFix, parseFix]
  | succ k ih =>
    intro n cs hn
    have hdiv : n / base < base ^ k := by
      rw [Nat.div_lt_iff_lt_mul hb]
      calc n < base ^ (k + 1) := hn
        _ = base ^ k * base := by ring
    have hmod : n % base < base := Nat.mod_lt _ hb
    have hstep := ih (n / base) (Nat.digitChar (n % base) :: cs) hdiv
    simp only [printFix, List.append_assoc, List.cons_append, List.nil_append]
    simp only [parseFix, hstep, hd (n % base) hmod]
    rw [Nat.div_add_mod']

theorem parseFixHex_printFix (k n : Nat) (cs : List Char) (hn : n < 16 ^ k) :
    parseFix 16 hexVal k (printFix 16 k n ++ cs) = some (n, cs) :=
  parseFix_printFix 16 hexVal (by norm_num) hexVal_digitChar k n cs hn

theorem parseFixDec_printFix (k n : Nat) (cs : List Char) (hn : n < 10 ^ k) :
    parseFix 10 decVal k (printFix 10 k n ++ cs) = some (n, cs) :=
  parseFix_printFix 10 decVal (by norm_num) decVal_digitChar k n cs hn

/-! ## UUID text codec.

Modelled from the spec: the `gocql.UUID` `MarshalText`/`UnmarshalText`
pair used by `serializeUuid`/`deserializeUuid` (library code, not under
`src/`). The canonical text form is the hex-dashed 8-4-4-4-12 layout;
unmarshalling accepts exactly that layout and fails on anything else. -/

/-- A UUID as its five canonical hex groups (32, 16, 16, 16 and 48 bits). -/
structure UUIDv where
  a : Nat
  b : Nat
  c : Nat
  d : Nat
  e : Nat
  deriving DecidableEq, Repr

/-- The canonical hex group widths: 8, 4, 4, 4, 12 hex digits. -/
def UUIDv.wf (u : UUIDv) : Prop :=
  u.a < 16 ^ 8 ∧ u.b < 16 ^ 4 ∧ u.c < 16 ^ 4 ∧ u.d < 16 ^ 4 ∧ u.e < 16 ^ 12

instance (u : UUIDv) : Decidable u.wf := by
  unfold UUIDv.wf
  infer_instance

/-- Canonical hex-dashed text of a UUID, as a character list. -/
def uuidPrintL (u : UUIDv) : List Char :=
  printFix 16 8 u.a ++ '-' ::
    (printFix 16 4 u.b ++ '-' ::
      (printFix 16 4 u.c ++ '-' ::
        (printFix 16 4 u.d ++ '-' :: printFix 16 12 u.e)))

/-- Consume one expected character from the front of the input. -/
def expectChar (c : Char) : List Char → Option (List Char)
  | c' :: r => if c' = c then some r else none
  | [] => none

/-- Parse exactly `k` digits followed by the separator `sep`. -/
def parseGroup (base : Nat) (dval : Char → Option Nat) (k : Nat) (sep : Char)
    (cs : List Char) : Option (Nat × List Char) :=
  (parseFix base dval k cs).bind fun p => (expectChar sep p.2).bind fun r => some (p.1, r)

theorem parseGroup_printFix (base : Nat) (dval : Char → Option Nat)
    (hb : 0 < base) (hd : ∀ v, v < base → dval (Nat.digitChar v) = some v)
    (k n : Nat) (sep : Char) (cs : List Char) (hn : n < base ^ k) :
    parseGroup base dval k sep (printFix base k n ++ sep :: cs) = some (n, cs) := by
  rw [parseGroup, parseFix_printFix base dval hb hd k n (sep :: cs) hn]
  simp [expectChar]

/-- Parse the canonical hex-dashed UUID text; `none` on any malformed input. -/
def uuidParseL (cs : List Char) : Option UUIDv :=
  (parseGroup 16 hexVal 8 '-' cs).bind fun p1 =>
  (parseGroup 16 hexVal 4 '-' p1.2).bind fun p2 =>
  (parseGroup 16 hexVal 4 '-' p2.2).bind fun p3 =>
  (parseGroup 16 hexVal 4 '-' p3.2).bind fun p4 =>
  (parseFix 16 hexVal 12 p4.2).bind fun p5 =>
  if p5.2 = [] then some ⟨p1.1, p2.1, p3.1, p4.1, p5.1⟩ else none

theorem parseGroupHex_printFix (k n : Nat) (sep : Char) (cs : List Char) (hn : n < 16 ^ k) :
    parseGroup 16 hexVal k sep (printFix 16 k n ++ sep :: cs) = some (n, cs) :=
  parseGroup_printFix 16 hexVal (by norm_num) hexVal_digitChar k n sep cs hn

theorem parseGroupDec_printFix (k n : Nat) (sep : Char) (cs : List Char) (hn : n < 10 ^ k) :
    parseGroup 10 decVal k sep (printFix 10 k n ++ sep :: cs) = some (n, cs) :=
  parseGroup_printFix 10 decVal (by norm_num) decVal_digitChar k n sep cs hn

/-- Round trip of the modelled UUID text codec on well-formed values. -/
theorem uuidParseL_uuidPrintL (u : UUIDv) (h : u.wf) :
    uuidParseL (uuidPrintL u) = some u := by
  obtain ⟨ha, hb, hc, hd, he⟩ := h
  have h1 := parseGroupHex_printFix 8 u.a '-'
    (printFix 16 4 u.b ++ '-' ::
      (printFix 16 4 u.c ++ '-' :: (printFix 16 4 u.d ++ '-' :: printFix 16 12 u.e))) ha
  have h2 := parseGroupHex_printFix 4 u.b '-'
    (printFix 16 4 u.c ++ '-' :: (printFix 16 4 u.d ++ '-' :: printFix 16 12 u.e)) hb
  have h3 := parseGroupHex_printFix 4 u.c '-'
    (printFix 16 4 u.d ++ '-' :: printFix 16 12 u.e) hc
  have h4 := parseGroupHex_printFix 4 u.d '-' (printFix 16 12 u.e) hd
  have h5 : parseFix 16 hexVal 12 (printFix 16 12 u.e) = some (u.e, []) := by
    simpa using parseFixHex_printFix 12 u.e [] he
  simp [uuidParseL, uuidPrintL, h1, h2, h3, h4, h5]

/-! ## IPv4 text codec.

Modelled from the spec: the `net.IP` `MarshalText`/`UnmarshalText` pair
used by `serializeIp`/`deserializeIp` (library code, not under `src/`),
restricted to IPv4 addresses. The textual form is the dotted quad of
decimal octets; unmarshalling fails on anything else. -/

/-- An IPv4 address as its four octets. -/
structure IPv4 where
  o1 : Nat
  o2 : Nat
  o3 : Nat
  o4 : Nat
  deriving DecidableEq, Repr

def IPv4.wf (a : IPv4) : Prop :=
  a.o1 < 256 ∧ a.o2 < 256 ∧ a.o3 < 256 ∧ a.o4 < 256

instance (a : IPv4) : Decidable a.wf := by
  unfold IPv4.wf
  infer_instance

/-- Minimal decimal text of an octet (valid for values below 1000). -/
def printDec (n : Nat) : List Char :=
  if n < 10 then [Nat.digitChar n]
  else if n < 100 then [Nat.digitChar (n / 10), Nat.digitChar (n % 10)]
  else [Nat.digitChar (n / 100), Nat.digitChar (n / 10 % 10), Nat.digitChar (n % 10)]

/-- Accumulating decimal reader over a whole character group. -/
def goDec (acc : Nat) : List Char → Option Nat
  | [] => some acc
  | c :: cs =>
    match decVal c with
    | some v => goDec (acc * 10 + v) cs
    | none => none

/-- Read a non-empty character group as a decimal number. -/
def parseDecAll : List Char → Option Nat
  | [] => none
  | cs => goDec 0 cs

/-- Split a character list into the groups between dots. -/
def splitDots : List Char → List (List Char)
  | [] => [[]]
  | c :: cs =>
    if c = '.' then [] :: splitDots cs
    else
      match splitDots cs with
      | g :: gs => (c :: g) :: gs
      | [] => [[c]]

theorem splitDots_ne_nil (xs : List Char) : splitDots xs ≠ [] := by
  induction xs with
  | nil => simp [splitDots]
  | cons c cs ih =>
    simp only [splitDots]
    split
    · simp
    · cases h : splitDots cs with
      | nil => simp
      | cons g gs => simp

theorem splitDots_nodot (xs : List Char) (h : ∀ c ∈ xs, c ≠ '.') :
    splitDots xs = [xs] := by
  induction xs with
  | nil => rfl
  | cons c cs ih =>
    have hc : c ≠ '.' := h c (by simp)
    have hrest := ih (fun c' hc' => h c' (by simp [hc']))
    simp [splitDots, hc, hrest]

theorem splitDots_append (xs ys : List Char) (h : ∀ c ∈ xs, c ≠ '.') :
    splitDots (xs ++ '.' :: ys) = xs :: splitDots ys := by
  induction xs with
  | nil => simp [splitDots]
  | cons c cs ih =>
    have hc : c ≠ '.' := h c (by simp)
    have hrest := ih (fun c' hc' => h c' (by simp [hc']))
    simp [splitDots, hc, hrest]

set_option maxRecDepth 8192 in
theorem printDec_nodot : ∀ n, n < 256 → ∀ c ∈ printDec n, c ≠ '.' := by decide

set_option maxRecDepth 8192 in
theorem parseDecAll_printDec : ∀ n, n < 256 → parseDecAll (printDec n) = some n := by decide

/-- Dotted-quad text of an IPv4 address, as a character list. -/
def ipPrintL (a : IPv4) : List Char :=
  printDec a.o1 ++ '.' :: (printDec a.o2 ++ '.' :: (printDec a.o3 ++ '.' :: printDec a.o4))

/-- Parse dotted-quad IPv4 text; `none` on any malformed input. -/
def ipParseL (cs : List Char) : Option IPv4 :=
  match splitDots cs with
  | [g1, g2, g3, g4] =>
    (parseDecAll g1).bind fun o1 =>
    (parseDecAll g2).bind fun o2 =>
    (parseDecAll g3).bind fun o3 =>
    (parseDecAll g4).bind fun o4 =>
    if o1 < 256 ∧ o2 < 256 ∧ o3 < 256 ∧ o4 < 256 then some ⟨o1, o2, o3, o4⟩ else none
  | _ => none

/-- Round trip of the modelled IPv4 text codec on well-formed values. -/
theorem ipParseL_ipPrintL (a : IPv4) (h : a.wf) :
    ipParseL (ipPrintL a) = some a := by
  obtain ⟨h1, h2, h3, h4⟩ := h
  have s1 := splitDots_append (printDec a.o1)
    (printDec a.o2 ++ '.' :: (printDec a.o3 ++ '.' :: printDec a.o4))
    (printDec_nodot a.o1 h1)
  have s2 := splitDots_append (printDec a.o2)
    (printDec a.o3 ++ '.' :: printDec a.o4)
    (printDec_nodot a.o2 h2)
  have s3 := splitDots_append (printDec a.o3) (printDec a.o4)
    (printDec_nodot a.o3 h3)
  have s4 := splitDots_nodot (printDec a.o4) (printDec_nodot a.o4 h4)
  simp [ipParseL, ipPrintL, s1, s2, s3, s4,
    parseDecAll_printDec a.o1 h1, parseDecAll_printDec a.o2 h2,
    parseDecAll_printDec a.o3 h3, parseDecAll_printDec a.o4 h4, h1, h2, h3, h4]

/-! ## RFC 3339 timestamp text codec.

Modelled from the spec: the `time.Time` `MarshalText`/`UnmarshalText`
pair used by `serializeTimestamp`/`deserializeTimestamp` (library code,
not under `src/`). The spec fixes the textual contract to RFC 3339;
the civil fields of the instant are modelled directly and fractional
seconds are modelled at fixed millisecond precision
(`YYYY-MM-DDThh:mm:ss.mmmZ`). Marshalling fails when the year does not
fit the four-digit field, matching the library's year-range error. -/

/-- A timestamp as its civil (UTC) fields, milliseconds precision. -/
structure TimeCivil where
  year : Nat
  month : Nat
  day : Nat
  hour : Nat
  minute : Nat
  sec : Nat
  ms : Nat
  deriving DecidableEq, Repr

/-- Field ranges of a representable RFC 3339 instant. -/
def TimeCivil.wf (t : TimeCivil) : Prop :=
  t.year ≤ 9999 ∧ 1 ≤ t.month ∧ t.month ≤ 12 ∧ 1 ≤ t.day ∧ t.day ≤ 31 ∧
    t.hour < 24 ∧ t.minute < 60 ∧ t.sec < 60 ∧ t.ms < 1000

instance (t : TimeCivil) : Decidable t.wf := by
  unfold TimeCivil.wf
  infer_instance

/-- RFC 3339 text of a timestamp, as a character list. -/
def timePrintL (t : TimeCivil) : List Char :=
  printFix 10 4 t.year ++ '-' ::
    (printFix 10 2 t.month ++ '-' ::
      (printFix 10 2 t.day ++ 'T' ::
        (printFix 10 2 t.hour ++ ':' ::
          (printFix 10 2 t.minute ++ ':' ::
            (printFix 10 2 t.sec ++ '.' :: (printFix 10 3 t.ms ++ ['Z']))))))

/-- Parse RFC 3339 timestamp text, validating field ranges; `none` on
any malformed input. -/
def timeParseL (cs : List Char) : Option TimeCivil :=
  (parseGroup 10 decVal 4 '-' cs).bind fun py =>
  (parseGroup 10 decVal 2 '-' py.2).bind fun pmo =>
  (parseGroup 10 decVal 2 'T' pmo.2).bind fun pd =>
  (parseGroup 10 decVal 2 ':' pd.2).bind fun ph =>
  (parseGroup 10 decVal 2 ':' ph.2).bind fun pmi =>
  (parseGroup 10 decVal 2 '.' pmi.2).bind fun ps =>
  (parseGroup 10 decVal 3 'Z' ps.2).bind fun pms =>
  if pms.2 = [] then
    let t : TimeCivil := ⟨py.1, pmo.1, pd.1, ph.1, pmi.1, ps.1, pms.1⟩
    if t.wf then some t else none
  else none

set_option maxHeartbeats 1000000 in
/-- Round trip of the modelled RFC 3339 codec on well-formed values. -/
theorem timeParseL_timePrintL (t : TimeCivil) (h : t.wf) :
    timeParseL (timePrintL t) = some t := by
  obtain ⟨hy, hmo1, hmo2, hd1, hd2, hh, hmi, hs, hms⟩ := h
  have py := parseGroupDec_printFix 4 t.year '-'
    (printFix 10 2 t.month ++ '-' ::
      (printFix 10 2 t.day ++ 'T' ::
        (printFix 10 2 t.hour ++ ':' ::
          (printFix 10 2 t.minute ++ ':' ::
            (printFix 10 2 t.sec ++ '.' :: (printFix 10 3 t.ms ++ ['Z']))))))
    (by omega)
  have pmo := parseGroupDec_printFix 2 t.month '-'
    (printFix 10 2 t.day ++ 'T' ::
      (printFix 10 2 t.hour ++ ':' ::
        (printFix 10 2 t.minute ++ ':' ::
          (printFix 10 2 t.sec ++ '.' :: (printFix 10 3 t.ms ++ ['Z'])))))
    (by omega)
  have pd := parseGroupDec_printFix 2 t.day 'T'
    (printFix 10 2 t.hour ++ ':' ::
      (printFix 10 2 t.minute ++ ':' ::
        (printFix 10 2 t.sec ++ '.' :: (printFix 10 3 t.ms ++ ['Z']))))
    (by omega)
  have ph := parseGroupDec_printFix 2 t.hour ':'
    (printFix 10 2 t.minute ++ ':' ::
      (printFix 10 2 t.sec ++ '.' :: (printFix 10 3 t.ms ++ ['Z'])))
    (by omega)
  have pmi := parseGroupDec_printFix 2 t.minute ':'
    (printFix 10 2 t.sec ++ '.' :: (printFix 10 3 t.ms ++ ['Z'])) (by omega)
  have ps := parseGroupDec_printFix 2 t.sec '.'
    (printFix 10 3 t.ms ++ ['Z']) (by omega)
  have pms : parseGroup 10 decVal 3 'Z' (printFix 10 3 t.ms ++ ['Z']) = some (t.ms, []) :=
    parseGroupDec_printFix 3 t.ms 'Z' [] (by omega)
  have hwf : TimeCivil.wf ⟨t.year, t.month, t.day, t.hour, t.minute, t.sec, t.ms⟩ :=
    ⟨hy, hmo1, hmo2, hd1, hd2, hh, hmi, hs, hms⟩
  simp [timeParseL, timePrintL, py, pmo, pd, ph, pmi, ps, pms, hwf]

/-! ## The scalar serialization layer (`graphql` package).

Embedding of the source file defining the `Timestamp`, `Uuid`,
`TimeUuid` and `Inet` GraphQL scalars. Go's dynamic `interface{}`
values reaching these functions are modelled by the closed `GoVal`
type; Go `nil` results are modelled by `none`. -/

/-- A dynamically typed Go value as it can reach the scalar
serialize/deserialize functions: `[]byte`, `string` and `*string`
carriers (byte slices here always carry text), the concrete scalar
carriers `time.Time`, `gocql.UUID` and `net.IP` with their pointer
forms, and representatives of every other dynamic type (ints, floats,
bools, anything else), which all fall to the `default` branch of the
source's type switches. -/
inductive GoVal where
  | bytes (s : String)
  | str (s : String)
  | ptrStr (p : Option String)
  | timeVal (t : TimeCivil)
  | ptrTime (t : TimeCivil)
  | uuidVal (u : UUIDv)
  | ptrUuid (u : UUIDv)
  | ipVal (a : IPv4)
  | ptrIp (a : IPv4)
  | intVal (n : Int)
  | floatVal (num : Int) (den : Nat)
  | boolVal (b : Bool)
  | otherVal
  deriving DecidableEq

/-- `deserializeFromUnmarshaler` from the source: builds a parse
function from a text unmarshaler. A `[]byte` input is unmarshalled
(`nil` on error), a `string` is re-dispatched as its bytes, a non-nil
`*string` as the pointee's bytes, a nil `*string` gives `nil`, and
every other dynamic type falls to the `default` branch giving `nil`.
The factory's unmarshaler is modelled by its `Option`-valued parse
function. -/
def deserializeFromUnmarshaler {α : Type} (unmarshal : String → Option α) : GoVal → Option α
  | .bytes s => unmarshal s
  | .str s => unmarshal s
  | .ptrStr none => none
  | .ptrStr (some s) => unmarshal s
  | _ => none

/-- `marshalText` from the source: marshal a value to text, `nil` on a
marshalling error, otherwise a pointer to the produced string. -/
def marshalText {α : Type} (m : α → Option String) (value : α) : Option String :=
  m value

/-- `time.Time.MarshalText`: RFC 3339 text; errors when the year does
not fit four digits (modelled from the library's contract). -/
def timeMarshal (t : TimeCivil) : Option String :=
  if t.year ≤ 9999 then some (String.mk (timePrintL t)) else none

/-- `time.Time.UnmarshalText`: RFC 3339 parse (modelled from the
library's contract). -/
def timeUnmarshal (s : String) : Option TimeCivil :=
  timeParseL s.data

/-- `gocql.UUID.MarshalText`: canonical hex-dashed text, never fails
(modelled from the library's contract). -/
def uuidMarshal (u : UUIDv) : Option String :=
  some (String.mk (uuidPrintL u))

/-- `gocql.UUID.UnmarshalText`: parse of the canonical hex-dashed text
(modelled from the library's contract). -/
def uuidUnmarshal (s : String) : Option UUIDv :=
  uuidParseL s.data

/-- `net.IP.MarshalText`: dotted-quad text of an IPv4 address (modelled
from the library's contract, restricted to IPv4). -/
def ipMarshal (a : IPv4) : Option String :=
  some (String.mk (ipPrintL a))

/-- `net.IP.UnmarshalText`: dotted-quad parse (modelled from the
library's contract, restricted to IPv4). -/
def ipUnmarshal (s : String) : Option IPv4 :=
  ipParseL s.data

/-- `serializeTimestamp` from the source: a `time.Time` or a
`*time.Time` is marshalled to text; every other dynamic type gives
`nil`. -/
def serializeTimestamp : GoVal → Option String
  | .timeVal t => marshalText timeMarshal t
  | .ptrTime t => marshalText timeMarshal t
  | _ => none

/-- `serializeUuid` from the source: a `gocql.UUID` or a `*gocql.UUID`
is marshalled to text; every other dynamic type gives `nil`. -/
def serializeUuid : GoVal → Option String
  | .uuidVal u => marshalText uuidMarshal u
  | .ptrUuid u => marshalText uuidMarshal u
  | _ => none

/-- `serializeIp` from the source: a `net.IP` or a `*net.IP` is
marshalled to text; every other dynamic type gives `nil`. -/
def serializeIp : GoVal → Option String
  | .ipVal a => marshalText ipMarshal a
  | .ptrIp a => marshalText ipMarshal a
  | _ => none

/-- `deserializeTimestamp` from the source, instantiated at the
`time.Time` unmarshaler. -/
def deserializeTimestamp : GoVal → Option TimeCivil :=
  deserializeFromUnmarshaler timeUnmarshal

/-- `deserializeUuid` from the source, instantiated at the `gocql.UUID`
unmarshaler (shared by the `Uuid` and `TimeUuid` scalars). -/
def deserializeUuid : GoVal → Option UUIDv :=
  deserializeFromUnmarshaler uuidUnmarshal

/-- `deserializeIp` from the source, instantiated at the `net.IP`
unmarshaler. -/
def deserializeIp : GoVal → Option IPv4 :=
  deserializeFromUnmarshaler ipUnmarshal

/-! ## The Type Mapper.

Modelled from the spec: the Type Mapper component (bidirectional
conversion between native column types and protocol scalar
representations) is not under `src/`; only its integration tests are.
`TypeKind` is the spec's closed set of scalar kinds, `ProtoValue` the
protocol-level value with an explicit `absent` case, and `RawValue` the
driver-level value; a database NULL at driver level is `none` in
`Option RawValue`. Floating-point payloads are carried as their bit
patterns; decimal and arbitrary-precision integers as exact
unscaled/scale and integer representations. -/

/-- The closed set of supported scalar kinds (spec section 3,
`TypeKind`). -/
inductive TypeKind where
  | text
  | boolean
  | tinyint
  | smallint
  | cqlInt
  | bigint
  | cqlFloat
  | cqlDouble
  | decimal
  | varint
  | blob
  | inet
  | timestamp
  | timeOfDay
  | uuid
  | timeuuid
  deriving DecidableEq, Repr

/-- A protocol-level scalar value; `absent` is the explicit value of a
database NULL, distinct from every zero-valued scalar. -/
inductive ProtoValue where
  | absent
  | textV (s : String)
  | boolV (b : Bool)
  | tinyintV (n : Int)
  | smallintV (n : Int)
  | intV (n : Int)
  | bigintV (n : Int)
  | floatV (bits : Nat)
  | doubleV (bits : Nat)
  | decimalV (unscaled : Int) (scale : Int)
  | varintV (n : Int)
  | blobV (bs : List Nat)
  | inetV (a : IPv4)
  | timestampV (t : TimeCivil)
  | timeV (ns : Nat)
  | uuidV (u : UUIDv)
  | timeuuidV (u : UUIDv)
  deriving DecidableEq

/-- A driver-level (database) scalar value. -/
inductive RawValue where
  | rawText (s : String)
  | rawBool (b : Bool)
  | rawTinyint (n : Int)
  | rawSmallint (n : Int)
  | rawInt (n : Int)
  | rawBigint (n : Int)
  | rawFloat (bits : Nat)
  | rawDouble (bits : Nat)
  | rawDecimal (unscaled : Int) (scale : Int)
  | rawVarint (n : Int)
  | rawBlob (bs : List Nat)
  | rawInet (a : IPv4)
  | rawTimestamp (t : TimeCivil)
  | rawTime (ns : Nat)
  | rawUuid (u : UUIDv)
  | rawTimeuuid (u : UUIDv)
  deriving DecidableEq

/-- Whether a protocol value is a representative of a scalar kind;
`absent` is a representative of every kind, and the integer widths,
bit-pattern widths and textual-scalar wellformedness bounds are
enforced. -/
def wellTyped : TypeKind → ProtoValue → Bool
  | _, .absent => true
  | .text, .textV _ => true
  | .boolean, .boolV _ => true
  | .tinyint, .tinyintV n => decide (-(2 ^ 7) ≤ n ∧ n < 2 ^ 7)
  | .smallint, .smallintV n => decide (-(2 ^ 15) ≤ n ∧ n < 2 ^ 15)
  | .cqlInt, .intV n => decide (-(2 ^ 31) ≤ n ∧ n < 2 ^ 31)
  | .bigint, .bigintV n => decide (-(2 ^ 63) ≤ n ∧ n < 2 ^ 63)
  | .cqlFloat, .floatV bits => decide (bits < 2 ^ 32)
  | .cqlDouble, .doubleV bits => decide (bits < 2 ^ 64)
  | .decimal, .decimalV _ _ => true
  | .varint, .varintV _ => true
  | .blob, .blobV bs => bs.all (fun b => decide (b < 256))
  | .inet, .inetV a => decide a.wf
  | .timestamp, .timestampV t => decide t.wf
  | .timeOfDay, .timeV ns => decide (ns < 86400000000000)
  | .uuid, .uuidV u => decide u.wf
  | .timeuuid, .timeuuidV u => decide u.wf
  | _, _ => false

/-- `encode(TypeKind, literalValue) → driverLiteral` of the Type
Mapper: the absent value encodes to a database NULL (`some none`), a
matching scalar to its driver carrier, and a kind mismatch is an
encoding error (`none`). -/
def encode : TypeKind → ProtoValue → Option (Option RawValue)
  | _, .absent => some none
  | .text, .textV s => some (some (.rawText s))
  | .boolean, .boolV b => some (some (.rawBool b))
  | .tinyint, .tinyintV n => some (some (.rawTinyint n))
  | .smallint, .smallintV n => some (some (.rawSmallint n))
  | .cqlInt, .intV n => some (some (.rawInt n))
  | .bigint, .bigintV n => some (some (.rawBigint n))
  | .cqlFloat, .floatV bits => some (some (.rawFloat bits))
  | .cqlDouble, .doubleV bits => some (some (.rawDouble bits))
  | .decimal, .decimalV unscaled scale => some (some (.rawDecimal unscaled scale))
  | .varint, .varintV n => some (some (.rawVarint n))
  | .blob, .blobV bs => some (some (.rawBlob bs))
  | .inet, .inetV a => some (some (.rawInet a))
  | .timestamp, .timestampV t => some (some (.rawTimestamp t))
  | .timeOfDay, .timeV ns => some (some (.rawTime ns))
  | .uuid, .uuidV u => some (some (.rawUuid u))
  | .timeuuid, .timeuuidV u => some (some (.rawTimeuuid u))
  | _, _ => none

/-- `decode(TypeKind, driverValue) → protocolValue` of the Type Mapper:
a database NULL decodes to the explicit `absent` value, and a matching
driver carrier to its protocol scalar. Exact-precision carriers
(decimal, varint) keep their exact representation. -/
def decode : TypeKind → Option RawValue → ProtoValue
  | _, none => .absent
  | .text, some (.rawText s) => .textV s
  | .boolean, some (.rawBool b) => .boolV b
  | .tinyint, some (.rawTinyint n) => .tinyintV n
  | .smallint, some (.rawSmallint n) => .smallintV n
  | .cqlInt, some (.rawInt n) => .intV n
  | .bigint, some (.rawBigint n) => .bigintV n
  | .cqlFloat, some (.rawFloat bits) => .floatV bits
  | .cqlDouble, some (.rawDouble bits) => .doubleV bits
  | .decimal, some (.rawDecimal unscaled scale) => .decimalV unscaled scale
  | .varint, some (.rawVarint n) => .varintV n
  | .blob, some (.rawBlob bs) => .blobV bs
  | .inet, some (.rawInet a) => .inetV a
  | .timestamp, some (.rawTimestamp t) => .timestampV t
  | .timeOfDay, some (.rawTime ns) => .timeV ns
  | .uuid, some (.rawUuid u) => .uuidV u
  | .timeuuid, some (.rawTimeuuid u) => .timeuuidV u
  | _, some _ => .absent

/-- Whether a protocol value is carried as a floating-point
representation. -/
def ProtoValue.isFloatCarrier : ProtoValue → Bool
  | .floatV _ => true
  | .doubleV _ => true
  | _ => false

/-! ## The Query Builder and execution options.

Modelled from the spec: the Query Builder and the GraphQL option
resolution are not under `src/`; the endpoint tests
(`endpoint_test.go`, `TestDataEndpoint_Query`/`_Auth`/`_PageSize`) pin
the produced statement text, bind order and resolved options. The
defaults are the ones the tests name: page size 100
(`graphql.DefaultPageSize`), consistency `LOCAL_QUORUM`
(`graphql.DefaultConsistencyLevel`), empty initial page state. -/

/-- The database's enumerated consistency levels (`gocql`). -/
inductive Consistency where
  | any
  | one
  | two
  | three
  | quorum
  | all
  | localQuorum
  | eachQuorum
  | localOne
  | serialC
  | localSerial
  deriving DecidableEq, Repr

/-- `graphql.DefaultConsistencyLevel` (the tests pin `LOCAL_QUORUM`). -/
def DefaultConsistencyLevel : Consistency := .localQuorum

/-- `graphql.DefaultPageSize` (the tests pin 100). -/
def DefaultPageSize : Nat := 100

/-- A bind value of a parameterized statement. -/
inductive BindValue where
  | strV (s : String)
  | natV (n : Nat)
  deriving DecidableEq, Repr

/-- One equality filter predicate of a query request (column and bound
literal). -/
structure FilterPred where
  column : String
  value : BindValue
  deriving DecidableEq, Repr

/-- A query request as the builder receives it: target table, equality
filter predicates in column order, and the optional limit, page size,
consistency and page state of the request's `options`. -/
structure QueryRequestM where
  keyspace : String
  table : String
  filters : List FilterPred
  limit : Option Nat
  pageSize : Option Nat
  consistency : Option Consistency
  pageState : Option (List Nat)
  deriving DecidableEq

/-- The execution options attached to a statement: resolved page size,
consistency and page state. -/
structure QueryOptionsM where
  pageSize : Nat
  consistency : Consistency
  pageState : List Nat
  deriving DecidableEq, Repr

/-- A built query plan: statement text, ordered bind values, resolved
execution options. -/
structure QueryPlanM where
  statement : String
  binds : List BindValue
  options : QueryOptionsM
  deriving DecidableEq

/-- Identifiers are quoted in the produced statement (the tests pin
`SELECT * FROM "store"."books" WHERE "title" = ?`). -/
def quoteIdent (s : String) : String :=
  "\"" ++ s ++ "\""

/-- Conjoin rendered predicate fragments with AND. -/
def joinAnd : List String → String
  | [] => ""
  | [p] => p
  | p :: ps => p ++ " AND " ++ joinAnd ps

/-- The WHERE clause: one `"column" = ?` fragment per predicate,
conjoined in the request's fixed predicate order. -/
def whereClause (fs : List FilterPred) : String :=
  joinAnd (fs.map (fun f => quoteIdent f.column ++ " = ?"))

/-- The statement text of a request: the filtered SELECT, with a
trailing bounded-results clause exactly when a limit is requested. -/
def selectStatement (r : QueryRequestM) : String :=
  "SELECT * FROM " ++ quoteIdent r.keyspace ++ "." ++ quoteIdent r.table ++
    " WHERE " ++ whereClause r.filters ++
    (match r.limit with
     | some _ => " LIMIT ?"
     | none => "")

/-- The ordered bind values of a request: the predicate binds in
predicate order, then the limit value when a limit is requested. -/
def bindValues (r : QueryRequestM) : List BindValue :=
  r.filters.map (fun f => f.value) ++
    (match r.limit with
     | some n => [.natV n]
     | none => [])

/-- Resolve the request's execution options: an omitted page size,
consistency or page state falls back to the process-wide default. -/
def resolveOptions (r : QueryRequestM) : QueryOptionsM :=
  ⟨r.pageSize.getD DefaultPageSize,
   r.consistency.getD DefaultConsistencyLevel,
   r.pageState.getD []⟩

/-- `build(Table, QueryRequest) → QueryPlan` of the Query Builder. -/
def buildQuery (r : QueryRequestM) : QueryPlanM :=
  ⟨selectStatement r, bindValues r, resolveOptions r⟩

/-! ## The Execution Gateway.

Modelled from the spec: the Execution Gateway is not under `src/`; the
endpoint tests (`TestDataEndpoint_Auth`,
`TestDataEndpoint_AuthNotProvided`) pin its behaviour. When
identity-scoped access is enabled, a missing caller identity fails the
call with the fixed AuthError message before any database submission;
a resolved identity is attached to the execution options of the one
submitted call. The database collaborator is modelled as a function
from calls to result pages, and the submitted calls are returned
alongside the outcome so call counts can be stated. -/

/-- Execution options as submitted to the database: the resolved query
options plus the optional attached caller identity
(`QueryOptions.WithUserOrRole`). -/
structure ExecOptions where
  base : QueryOptionsM
  userOrRole : Option String
  deriving DecidableEq, Repr

/-- One submitted database call: statement text, bind values, execution
options. -/
structure DbCall where
  statement : String
  binds : List BindValue
  options : ExecOptions
  deriving DecidableEq

/-- A page of results: decoded rows and the next opaque page state. -/
structure ResultPage where
  rows : List (List (String × ProtoValue))
  pageState : List Nat

/-- The gateway's error taxonomy as far as these properties need it. -/
inductive GwError where
  | authError (msg : String)
  | execError (msg : String)
  deriving DecidableEq, Repr

/-- The fixed AuthError message (`endpoint_test.go` pins it). -/
def authErrorMessage : String :=
  "expected user or role for this operation"

/-- `execute(QueryPlan, callerIdentity?)` of the Execution Gateway:
with identity-scoped access enabled and no resolvable identity the
call fails with the AuthError and nothing is submitted; otherwise the
one call is submitted with the identity (when required) attached to
its execution options. Returns the outcome together with the list of
submitted calls. -/
def executeGateway (useUserOrRoleAuth : Bool) (identity : Option String)
    (plan : QueryPlanM) (db : DbCall → ResultPage) :
    Except GwError ResultPage × List DbCall :=
  if useUserOrRoleAuth then
    match identity with
    | none => (.error (.authError authErrorMessage), [])
    | some user =>
      let call : DbCall := ⟨plan.statement, plan.binds, ⟨plan.options, some user⟩⟩
      (.ok (db call), [call])
  else
    let call : DbCall := ⟨plan.statement, plan.binds, ⟨plan.options, none⟩⟩
    (.ok (db call), [call])

/-- A protocol response body: optional data and the error entries. -/
structure ProtocolResponse where
  hasData : Bool
  errors : List String

/-- Surface a gateway outcome as a protocol response: a failure becomes
exactly one error entry carrying the error's message. -/
def toResponse : Except GwError ResultPage → ProtocolResponse
  | .error (.authError msg) => ⟨false, [msg]⟩
  | .error (.execError msg) => ⟨false, [msg]⟩
  | .ok _ => ⟨true, []⟩

/-! ## Schema update interval resolution (`cmd/server.go`).

Embedding of `createEndpoint`: a non-positive configured
`schema-update-interval` falls back to
`endpoint.DefaultSchemaUpdateDuration`. Durations are modelled as
signed nanosecond counts (Go `time.Duration`). -/

/-- Modelled from the spec: `endpoint.DefaultSchemaUpdateDuration`
(the `endpoint` package is not under `src/`; the config mock pins ten
seconds). Ten seconds in nanoseconds. -/
def DefaultSchemaUpdateDuration : Int := 10 * 1000000000

/-- The interval resolution of `createEndpoint` in `cmd/server.go`:
`if updateInterval <= 0 { updateInterval = endpoint.DefaultSchemaUpdateDuration }`. -/
def resolveSchemaUpdateInterval (updateInterval : Int) : Int :=
  if updateInterval ≤ 0 then DefaultSchemaUpdateDuration else updateInterval

/-! ## Atomic snapshot publication.

Modelled from the spec: the Schema Synchronizer and its atomic
publication of (SchemaSnapshot, GeneratedOperationSet) pairs are not
under `src/`. Publication is a single-writer atomic swap; a request
obtains the published pair once at start and uses that reference for
its whole lifetime. States record the published version and each
in-flight request's captured version together with the versions it has
been served against; the interleaving of request starts, serve steps
and publications is a step relation. -/

/-- One in-flight request: the snapshot version captured at its start
and the versions its serve steps have used so far. -/
structure ReqState where
  startedWith : Nat
  served : List Nat
  deriving DecidableEq, Repr

/-- The shared state: the currently published snapshot version and the
in-flight requests. -/
structure SyncState where
  published : Nat
  requests : List ReqState
  deriving DecidableEq, Repr

/-- A request serve step dereferences the reference captured at request
start (spec section 3, Ownership: the handler never re-reads the
published pair mid-request). -/
def ReqState.serveOnce (r : ReqState) : ReqState :=
  ⟨r.startedWith, r.startedWith :: r.served⟩

/-- The system's interleaved steps: the synchronizer publishes a new
version, a request starts and captures the currently published
version, or an in-flight request is served one step against its
captured reference. -/
inductive SyncStep : SyncState → SyncState → Prop where
  | publish (s : SyncState) (v : Nat) :
      SyncStep s ⟨v, s.requests⟩
  | start (s : SyncState) :
      SyncStep s ⟨s.published, ⟨s.published, []⟩ :: s.requests⟩
  | serve (p : Nat) (pre post : List ReqState) (r : ReqState) :
      SyncStep ⟨p, pre ++ r :: post⟩ ⟨p, pre ++ r.serveOnce :: post⟩

/-- The initial state: version zero published, no in-flight requests. -/
def initialSyncState : SyncState := ⟨0, []⟩

/-- Reachability under the interleaved step relation. -/
def SyncReachable (s : SyncState) : Prop :=
  Relation.ReflTransGen SyncStep initialSyncState s

/-- Every serve step of a request used the snapshot version captured at
the request's start. -/
def servedConsistently (s : SyncState) : Prop :=
  ∀ r ∈ s.requests, ∀ v ∈ r.served, v = r.startedWith

theorem servedConsistently_step {s s' : SyncState}
    (hs : servedConsistently s) (hstep : SyncStep s s') :
    servedConsistently s' := by
  cases hstep with
  | publish s v =>
    intro r hr v' hv'
    exact hs r hr v' hv'
  | start s =>
    intro r hr v' hv'
    rcases List.mem_cons.mp hr with heq | hmem
    · subst heq
      simp at hv'
    · exact hs r hmem v' hv'
  | serve p pre post r =>
    intro r' hr' v' hv'
    rcases List.mem_append.mp hr' with hpre | hrest
    · exact hs r' (List.mem_append.mpr (.inl hpre)) v' hv'
    · rcases List.mem_cons.mp hrest with heq | hpost
      · subst heq
        rcases List.mem_cons.mp hv' with hv0 | hvs
        · exact hv0
        · exact hs r (List.mem_append.mpr (.inr (List.mem_cons_self _ _))) v' hvs
      · exact hs r' (List.mem_append.mpr (.inr (List.mem_cons_of_mem _ hpost))) v' hv'

/-! ## The claims -/

/-- C1: for every query request specifying an explicit limit N, the
built statement equals the statement of the same request without a
limit followed by the trailing bounded-results clause " LIMIT ?", and
N is appended as the final bind value after all predicate binds (the
no-limit binds are exactly the predicate binds in order). The spec's
example (filter title = "abc", limit 3 against store.books) produces
exactly the pinned statement and binds. -/
theorem claim_C1_limit_appends_bounded_clause (r : QueryRequestM) (n : Nat) :
    (buildQuery { r with limit := some n }).statement
        = (buildQuery { r with limit := none }).statement ++ " LIMIT ?" ∧
    (buildQuery { r with limit := some n }).binds
        = (buildQuery { r with limit := none }).binds ++ [.natV n] ∧
    (buildQuery { r with limit := none }).binds = r.filters.map (fun f => f.value) ∧
    (buildQuery { r with limit := some n }).options
        = (buildQuery { r with limit := none }).options ∧
    buildQuery ⟨"store", "books", [⟨"title", .strV "abc"⟩], some 3, none, none, none⟩
      = ⟨"SELECT * FROM \"store\".\"books\" WHERE \"title\" = ? LIMIT ?",
         [.strV "abc", .natV 3],
         ⟨DefaultPageSize, DefaultConsistencyLevel, []⟩⟩ := by
  refine ⟨?_, ?_, ?_, ?_, ?_⟩ <;>
    simp [buildQuery, selectStatement, bindValues, resolveOptions, whereClause,
      joinAnd, quoteIdent, DefaultPageSize, DefaultConsistencyLevel]

/-- C4: a request omitting page size and consistency builds exactly the
same plan (statement text, binds and execution options) as the same
request with page size explicitly the default page size and consistency
explicitly the configured default consistency level. -/
theorem claim_C4_omitted_options_equal_explicit_defaults (r : QueryRequestM) :
    buildQuery { r with pageSize := none, consistency := none }
      = buildQuery { r with pageSize := some DefaultPageSize,
                            consistency := some DefaultConsistencyLevel } := by
  simp [buildQuery, selectStatement, bindValues, resolveOptions]

/-- C5: an explicit consistency level is reflected in the execution
options, while the statement text, the bind values and every other
execution option are those of the same request with the consistency
omitted (hence default): the consistency choice changes nothing else. -/
theorem claim_C5_consistency_only_changes_options (r : QueryRequestM) (c : Consistency) :
    (buildQuery { r with consistency := some c }).statement
        = (buildQuery { r with consistency := none }).statement ∧
    (buildQuery { r with consistency := some c }).binds
        = (buildQuery { r with consistency := none }).binds ∧
    (buildQuery { r with consistency := some c }).options.consistency = c ∧
    (buildQuery { r with consistency := some c }).options.pageSize
        = (buildQuery { r with consistency := none }).options.pageSize ∧
    (buildQuery { r with consistency := some c }).options.pageState
        = (buildQuery { r with consistency := none }).options.pageState := by
  refine ⟨?_, ?_, ?_, ?_, ?_⟩ <;>
    simp [buildQuery, selectStatement, bindValues, resolveOptions]

/-- C8: a non-positive configured schema refresh interval resolves to
the documented default schema-update interval; a positive configured
interval is used as given (`createEndpoint`, `cmd/server.go`). -/
theorem claim_C8_schema_interval_fallback (i : Int) :
    (i ≤ 0 → resolveSchemaUpdateInterval i = DefaultSchemaUpdateDuration) ∧
    (0 < i → resolveSchemaUpdateInterval i = i) := by
  constructor
  · intro h
    simp [resolveSchemaUpdateInterval, h]
  · intro h
    have h' : ¬ i ≤ 0 := by omega
    simp [resolveSchemaUpdateInterval, h']

/-- Witness for C8 at a negative and at a positive configured interval. -/
theorem claim_C8_schema_interval_fallback_witness :
    resolveSchemaUpdateInterval (-5) = DefaultSchemaUpdateDuration ∧
    resolveSchemaUpdateInterval 7 = 7 :=
  ⟨(claim_C8_schema_interval_fallback (-5)).1 (by norm_num),
   (claim_C8_schema_interval_fallback 7).2 (by norm_num)⟩

/-- C2: with identity-scoped access enabled, a missing caller identity
fails the call with an AuthError whose message is exactly
"expected user or role for this operation", surfaced as exactly one
error entry in the protocol response, and no call is submitted to the
database; a resolved identity leads to exactly one submitted call with
the mapped identity attached to its execution options. -/
theorem claim_C2_identity_scoped_access (identity : Option String)
    (plan : QueryPlanM) (db : DbCall → ResultPage) :
    (identity = none →
      executeGateway true identity plan db
          = (.error (.authError "expected user or role for this operation"), []) ∧
      (toResponse (executeGateway true identity plan db).1).errors
          = ["expected user or role for this operation"] ∧
      (toResponse (executeGateway true identity plan db).1).errors.length = 1 ∧
      (executeGateway true identity plan db).2.length = 0) ∧
    (∀ user, identity = some user →
      (executeGateway true identity plan db).2.length = 1 ∧
      ∀ call ∈ (executeGateway true identity plan db).2,
        call.options.userOrRole = some user ∧
        call.statement = plan.statement ∧
        call.binds = plan.binds ∧
        call.options.base = plan.options) := by
  constructor
  · intro h
    subst h
    refine ⟨rfl, rfl, rfl, rfl⟩
  · intro user h
    subst h
    refine ⟨rfl, ?_⟩
    intro call hcall
    simp [executeGateway] at hcall
    subst hcall
    exact ⟨rfl, rfl, rfl, rfl⟩

/-- A sample built plan for witnesses. -/
def samplePlan : QueryPlanM :=
  buildQuery ⟨"store", "books", [⟨"title", .strV "abc"⟩], none, none, none, none⟩

/-- A sample database collaborator for witnesses: returns an empty
page. -/
def sampleDb : DbCall → ResultPage :=
  fun _ => ⟨[], []⟩

/-- Witness for C2: the gateway under enabled identity-scoped access,
once with no identity and once with the mapped identity "user1". -/
theorem claim_C2_identity_scoped_access_witness :
    (executeGateway true none samplePlan sampleDb
        = (.error (.authError "expected user or role for this operation"), []) ∧
      (toResponse (executeGateway true none samplePlan sampleDb).1).errors
        = ["expected user or role for this operation"] ∧
      (toResponse (executeGateway true none samplePlan sampleDb).1).errors.length = 1 ∧
      (executeGateway true none samplePlan sampleDb).2.length = 0) ∧
    ((executeGateway true (some "user1") samplePlan sampleDb).2.length = 1 ∧
      ∀ call ∈ (executeGateway true (some "user1") samplePlan sampleDb).2,
        call.options.userOrRole = some "user1" ∧
        call.statement = samplePlan.statement ∧
        call.binds = samplePlan.binds ∧
        call.options.base = samplePlan.options) :=
  ⟨(claim_C2_identity_scoped_access none samplePlan sampleDb).1 rfl,
   (claim_C2_identity_scoped_access (some "user1") samplePlan sampleDb).2 "user1" rfl⟩

/-- The decode of a database NULL is the explicit absent value, for
every kind. -/
theorem decode_dbNull (k : TypeKind) : decode k none = .absent := by
  cases k <;> rfl

/-- C3: for every supported scalar kind and representative value of
that kind, including the absent value, decoding the encoding yields the
value unchanged; a database NULL decodes to the explicit absent value,
which is distinct from every zero-valued scalar such as the empty
string. -/
theorem claim_C3_scalar_roundtrip (k : TypeKind) (v : ProtoValue)
    (h : wellTyped k v = true) :
    (encode k v).map (decode k) = some v ∧
    decode k none = ProtoValue.absent ∧
    ProtoValue.absent ≠ ProtoValue.textV "" := by
  refine ⟨?_, decode_dbNull k, by simp⟩
  cases k <;> cases v <;> simp_all [wellTyped, encode, decode]

/-- Witness for C3 at the text kind: a representative string value and
the absent value both round-trip. -/
theorem claim_C3_scalar_roundtrip_witness :
    ((encode .text (.textV "book1")).map (decode .text) = some (.textV "book1") ∧
      decode .text none = ProtoValue.absent ∧
      ProtoValue.absent ≠ ProtoValue.textV "") ∧
    ((encode .text .absent).map (decode .text) = some .absent ∧
      decode .text none = ProtoValue.absent ∧
      ProtoValue.absent ≠ ProtoValue.textV "") :=
  ⟨claim_C3_scalar_roundtrip .text (.textV "book1") (by decide),
   claim_C3_scalar_roundtrip .text .absent (by decide)⟩

/-- C7: decimal and arbitrary-precision integer driver values decode to
the exact-precision protocol representations (the exact unscaled/scale
pair and the exact integer, losslessly: equal representations mean
equal components), and no decode of a decimal or varint column ever
yields a floating-point carrier. -/
theorem claim_C7_exact_precision_numerics :
    (∀ (unscaled scale : Int),
      decode .decimal (some (.rawDecimal unscaled scale)) = .decimalV unscaled scale) ∧
    (∀ n : Int, decode .varint (some (.rawVarint n)) = .varintV n) ∧
    (∀ (u1 s1 u2 s2 : Int),
      (ProtoValue.decimalV u1 s1 = ProtoValue.decimalV u2 s2) ↔ (u1 = u2 ∧ s1 = s2)) ∧
    (∀ (n1 n2 : Int), (ProtoValue.varintV n1 = ProtoValue.varintV n2) ↔ n1 = n2) ∧
    (∀ d : Option RawValue, (decode .decimal d).isFloatCarrier = false) ∧
    (∀ d : Option RawValue, (decode .varint d).isFloatCarrier = false) := by
  refine ⟨fun _ _ => rfl, fun _ => rfl, ?_, ?_, ?_, ?_⟩
  · intro u1 s1 u2 s2
    simp
  · intro n1 n2
    simp
  · intro d
    rcases d with _ | r
    · rfl
    · cases r <;> rfl
  · intro d
    rcases d with _ | r
    · rfl
    · cases r <;> rfl

/-- C6: timestamp, UUID/TimeUuid and network-address scalars serialize
to the canonical text (RFC 3339 for timestamps, hex-dashed form for
UUIDs, textual form for addresses) and the deserializers parse that
same text back to the value; on any input text the unmarshaler rejects,
deserialization returns the error marker (`none`) instead of crashing
(the functions are total). -/
theorem claim_C6_canonical_text_contract :
    (∀ u : UUIDv, u.wf →
      serializeUuid (.uuidVal u) = some (String.mk (uuidPrintL u)) ∧
      deserializeUuid (.str (String.mk (uuidPrintL u))) = some u) ∧
    (∀ t : TimeCivil, t.wf →
      serializeTimestamp (.timeVal t) = some (String.mk (timePrintL t)) ∧
      deserializeTimestamp (.str (String.mk (timePrintL t))) = some t) ∧
    (∀ a : IPv4, a.wf →
      serializeIp (.ipVal a) = some (String.mk (ipPrintL a)) ∧
      deserializeIp (.str (String.mk (ipPrintL a))) = some a) ∧
    (∀ s, uuidUnmarshal s = none → deserializeUuid (.str s) = none) ∧
    (∀ s, timeUnmarshal s = none → deserializeTimestamp (.str s) = none) ∧
    (∀ s, ipUnmarshal s = none → deserializeIp (.str s) = none) := by
  refine ⟨?_, ?_, ?_, ?_, ?_, ?_⟩
  · intro u hu
    refine ⟨rfl, ?_⟩
    show uuidUnmarshal (String.mk (uuidPrintL u)) = some u
    show uuidParseL (String.mk (uuidPrintL u)).data = some u
    exact uuidParseL_uuidPrintL u hu
  · intro t ht
    refine ⟨?_, ?_⟩
    · show marshalText timeMarshal t = some (String.mk (timePrintL t))
      simp [marshalText, timeMarshal, ht.1]
    · show timeParseL (String.mk (timePrintL t)).data = some t
      exact timeParseL_timePrintL t ht
  · intro a ha
    refine ⟨rfl, ?_⟩
    show ipParseL (String.mk (ipPrintL a)).data = some a
    exact ipParseL_ipPrintL a ha
  · intro s hs
    show uuidUnmarshal s = none
    exact hs
  · intro s hs
    show timeUnmarshal s = none
    exact hs
  · intro s hs
    show ipUnmarshal s = none
    exact hs

/-- Witness for C6: a concrete UUID, timestamp and IPv4 value, and a
concrete malformed text for each deserializer. -/
theorem claim_C6_canonical_text_contract_witness :
    (serializeUuid (.uuidVal ⟨1, 2, 3, 4, 5⟩)
        = some (String.mk (uuidPrintL ⟨1, 2, 3, 4, 5⟩)) ∧
      deserializeUuid (.str (String.mk (uuidPrintL ⟨1, 2, 3, 4, 5⟩)))
        = some ⟨1, 2, 3, 4, 5⟩) ∧
    (serializeTimestamp (.timeVal ⟨2019, 12, 31, 23, 59, 59, 999⟩)
        = some (String.mk (timePrintL ⟨2019, 12, 31, 23, 59, 59, 999⟩)) ∧
      deserializeTimestamp (.str (String.mk (timePrintL ⟨2019, 12, 31, 23, 59, 59, 999⟩)))
        = some ⟨2019, 12, 31, 23, 59, 59, 999⟩) ∧
    (serializeIp (.ipVal ⟨10, 10, 150, 1⟩)
        = some (String.mk (ipPrintL ⟨10, 10, 150, 1⟩)) ∧
      deserializeIp (.str (String.mk (ipPrintL ⟨10, 10, 150, 1⟩)))
        = some ⟨10, 10, 150, 1⟩) ∧
    deserializeUuid (.str "not-a-uuid") = none ∧
    deserializeTimestamp (.str "2019-13") = none ∧
    deserializeIp (.str "10.10.150") = none :=
  ⟨claim_C6_canonical_text_contract.1 ⟨1, 2, 3, 4, 5⟩ (by decide),
   claim_C6_canonical_text_contract.2.1 ⟨2019, 12, 31, 23, 59, 59, 999⟩ (by decide),
   claim_C6_canonical_text_contract.2.2.1 ⟨10, 10, 150, 1⟩ (by decide),
   claim_C6_canonical_text_contract.2.2.2.1 "not-a-uuid" (by decide),
   claim_C6_canonical_text_contract.2.2.2.2.1 "2019-13" (by decide),
   claim_C6_canonical_text_contract.2.2.2.2.2 "10.10.150" (by decide)⟩

/-- C9: snapshot publication is atomic: in every state reachable by any
interleaving of request starts, serve steps and publications, every
serve step of every in-flight request used exactly the snapshot
version captured at that request's start — a request started before a
publication keeps the pre-change pair for its whole lifetime and no
request is served against a mix of versions. -/
theorem claim_C9_atomic_snapshot_publication (s : SyncState)
    (h : SyncReachable s) : servedConsistently s := by
  induction h with
  | refl =>
    intro r hr v hv
    simp [initialSyncState] at hr
  | tail hsteps hstep ih =>
    exact servedConsistently_step ih hstep

/-- Witness for C9: a request starts under version 0, is served once,
then version 5 is published mid-request; the reached state satisfies
the invariant. -/
theorem claim_C9_atomic_snapshot_publication_witness :
    SyncReachable ⟨5, [⟨0, [0]⟩]⟩ ∧ servedConsistently ⟨5, [⟨0, [0]⟩]⟩ := by
  have h1 : SyncStep initialSyncState ⟨0, [⟨0, []⟩]⟩ :=
    SyncStep.start initialSyncState
  have h2 : SyncStep ⟨0, [⟨0, []⟩]⟩ ⟨0, [⟨0, [0]⟩]⟩ :=
    SyncStep.serve 0 [] [] ⟨0, []⟩
  have h3 : SyncStep ⟨0, [⟨0, [0]⟩]⟩ ⟨5, [⟨0, [0]⟩]⟩ :=
    SyncStep.publish ⟨0, [⟨0, [0]⟩]⟩ 5
  have hreach : SyncReachable ⟨5, [⟨0, [0]⟩]⟩ :=
    Relation.ReflTransGen.refl.tail h1 |>.tail h2 |>.tail h3
  exact ⟨hreach, claim_C9_atomic_snapshot_publication _ hreach⟩

/-- C10: the deserialization function built by
`deserializeFromUnmarshaler` is total over all dynamic input types:
every input that is not a byte slice, string or string pointer gives
`none`; a nil string pointer gives `none`; byte/string inputs are
fully characterized as the unmarshaler's result (so a failed unmarshal
gives `none`); and each serialize function gives `none` on every value
of an unexpected dynamic type, and `none` when the value's text
marshalling fails. -/
theorem claim_C10_dynamic_type_totality {α : Type} (unmarshal : String → Option α) :
    (∀ v : GoVal,
      (∀ s, v ≠ .bytes s) → (∀ s, v ≠ .str s) → (∀ p, v ≠ .ptrStr p) →
        deserializeFromUnmarshaler unmarshal v = none) ∧
    deserializeFromUnmarshaler unmarshal (.ptrStr none) = none ∧
    (∀ s, deserializeFromUnmarshaler unmarshal (.bytes s) = unmarshal s) ∧
    (∀ s, deserializeFromUnmarshaler unmarshal (.str s) = unmarshal s) ∧
    (∀ s, deserializeFromUnmarshaler unmarshal (.ptrStr (some s)) = unmarshal s) ∧
    (∀ v : GoVal,
      (∀ t, v ≠ .timeVal t) → (∀ t, v ≠ .ptrTime t) → serializeTimestamp v = none) ∧
    (∀ v : GoVal,
      (∀ u, v ≠ .uuidVal u) → (∀ u, v ≠ .ptrUuid u) → serializeUuid v = none) ∧
    (∀ v : GoVal,
      (∀ a, v ≠ .ipVal a) → (∀ a, v ≠ .ptrIp a) → serializeIp v = none) ∧
    (∀ t, timeMarshal t = none → serializeTimestamp (.timeVal t) = none) ∧
    (∀ t, timeMarshal t = none → serializeTimestamp (.ptrTime t) = none) := by
  refine ⟨?_, rfl, fun _ => rfl, fun _ => rfl, fun _ => rfl, ?_, ?_, ?_, ?_, ?_⟩
  · intro v hb hs hp
    cases v with
    | bytes s => exact absurd rfl (hb s)
    | str s => exact absurd rfl (hs s)
    | ptrStr p => exact absurd rfl (hp p)
    | _ => rfl
  · intro v h1 h2
    cases v with
    | timeVal t => exact absurd rfl (h1 t)
    | ptrTime t => exact absurd rfl (h2 t)
    | _ => rfl
  · intro v h1 h2
    cases v with
    | uuidVal u => exact absurd rfl (h1 u)
    | ptrUuid u => exact absurd rfl (h2 u)
    | _ => rfl
  · intro v h1 h2
    cases v with
    | ipVal a => exact absurd rfl (h1 a)
    | ptrIp a => exact absurd rfl (h2 a)
    | _ => rfl
  · intro t ht
    show marshalText timeMarshal t = none
    simpa [marshalText] using ht
  · intro t ht
    show marshalText timeMarshal t = none
    simpa [marshalText] using ht

/-- Witness for C10: an int input, a nil string pointer, a malformed
string, a non-time value given to the timestamp serializer, and a
timestamp whose year overflows the four-digit RFC 3339 field. -/
theorem claim_C10_dynamic_type_totality_witness :
    deserializeFromUnmarshaler uuidUnmarshal (.intVal 42) = none ∧
    deserializeFromUnmarshaler uuidUnmarshal (.ptrStr none) = none ∧
    deserializeFromUnmarshaler uuidUnmarshal (.str "abc") = uuidUnmarshal "abc" ∧
    serializeTimestamp (.boolVal true) = none ∧
    serializeTimestamp (.timeVal ⟨10000, 1, 1, 0, 0, 0, 0⟩) = none := by
  refine ⟨?_, ?_, ?_, ?_, ?_⟩
  · exact (claim_C10_dynamic_type_totality uuidUnmarshal).1 (.intVal 42)
      (fun s h => by cases h) (fun s h => by cases h) (fun p h => by cases h)
  · exact (claim_C10_dynamic_type_totality uuidUnmarshal).2.1
  · exact (claim_C10_dynamic_type_totality uuidUnmarshal).2.2.2.1 "abc"
  · exact (claim_C10_dynamic_type_totality uuidUnmarshal).2.2.2.2.2.1 (.boolVal true)
      (fun t h => by cases h) (fun t h => by cases h)
  · exact (claim_C10_dynamic_type_totality uuidUnmarshal).2.2.2.2.2.2.2.2.1
      ⟨10000, 1, 1, 0, 0, 0, 0⟩ (by decide)

end CassandraDataApis
